import Mathlib

/-!
Verification of the natural-language specification of
`sys/cddl/contrib/opensolaris/uts/common/fs/zfs/vdev_geom.c`
(FreeBSD ZFS GEOM vdev backend) against a shallow Lean embedding of the file.

Each definition is translated from the C source; line references point into
`vdev_geom.c`.  External collaborators (the GEOM layer, the SPA, the zio
pipeline) appear as oracles/parameters, never as stubs of the logic under
verification.
-/

namespace VdevGeom

/-! ## Constants (from FreeBSD headers used by vdev_geom.c) -/

/-- `MAXPHYS` (sys/param.h): maximum size of one physical transfer, 128 KiB. -/
def MAXPHYS : Nat := 128 * 1024

/-- `SPA_MINBLOCKSIZE` (sys/spa.h): `1 << SPA_MINBLOCKSHIFT` with shift 9. -/
def SPA_MINBLOCKSIZE : Nat := 512

/-- `VDEV_PAD_SIZE` (sys/vdev_impl.h): `8 << 10`. -/
def VDEV_PAD_SIZE : Nat := 8192

/-- errno values (sys/errno.h). -/
def ENOENT : Nat := 2
def EIO : Nat := 5
def ENXIO : Nat := 6
def EINVAL : Nat := 22
def ENOTSUP : Nat := 45

/-- `ISP2(x)` (sys/sysmacros.h): `((x) & ((x) - 1)) == 0`.  For unsigned `x = 0`
the C expression is `0 & ~0 == 0`, i.e. true, and `Nat` truncated subtraction
gives the same value. -/
def ISP2 (x : Nat) : Bool := x &&& (x - 1) == 0

/-- `highbit(i)` (sys/sysmacros.h): 1-based index of the highest set bit of
`i`, and `0` for `i = 0`.  The C helper computes this by a branching bit scan;
its value on every input is `⌊log2 i⌋ + 1` for `i ≠ 0`. -/
def highbit (n : Nat) : Nat := if n = 0 then 0 else Nat.log2 n + 1

/-! ## The synchronous chunked transfer loop `vdev_geom_io` (lines 269-302)

```
	maxio = MAXPHYS - (MAXPHYS % cp->provider->sectorsize);
	for (; off < offset; off += maxio, p += maxio, size -= maxio) {
		bp->bio_offset = off;
		bp->bio_length = MIN(size, maxio);
		g_io_request(bp, cp);
		error = biowait(bp, "vdev_geom_io");
		if (error != 0)
			break;
	}
```
`geomIoChunks off endo maxio` is the list of `(bio_offset, bio_length)` pairs
the loop builds (`endo` is the exclusive end `offset + size`; the loop
invariant `size = endo - off` replaces the mutable `size`).  `geomIoRun`
is the submit/biowait/break-on-error sequencing; the per-chunk `biowait`
outcome is an oracle `err`. -/

def vdev_geom_maxio (sectorsize : Nat) : Nat := MAXPHYS - MAXPHYS % sectorsize

def geomIoChunks (off endo maxio : Nat) : List (Nat × Nat) :=
  if _h : off < endo ∧ 0 < maxio then
    (off, min (endo - off) maxio) :: geomIoChunks (off + maxio) endo maxio
  else
    []
termination_by endo - off
decreasing_by simp_wf; omega

def geomIoRun (err : Nat × Nat → Nat) : List (Nat × Nat) → List (Nat × Nat) × Nat
  | [] => ([], 0)
  | c :: cs =>
    if err c ≠ 0 then ([c], err c)
    else
      let r := geomIoRun err cs
      (c :: r.1, r.2)

/-- `vdev_geom_io cmd data offset size` with the chunk outcomes abstracted:
returns the chunks actually issued (in order) and the error returned to the
caller (`0` on full success, otherwise the first failing chunk's `biowait`
error). -/
def vdev_geom_io (err : Nat × Nat → Nat) (sectorsize offset size : Nat) :
    List (Nat × Nat) × Nat :=
  geomIoRun err (geomIoChunks offset (offset + size) (vdev_geom_maxio sectorsize))

/-! ### Structural lemmas about the chunk list -/

theorem geomIoChunks_nil (off endo maxio : Nat) (h : ¬ (off < endo ∧ 0 < maxio)) :
    geomIoChunks off endo maxio = [] := by
  unfold geomIoChunks
  rw [dif_neg h]

theorem geomIoChunks_cons (off endo maxio : Nat) (h : off < endo ∧ 0 < maxio) :
    geomIoChunks off endo maxio =
      (off, min (endo - off) maxio) :: geomIoChunks (off + maxio) endo maxio := by
  conv_lhs => unfold geomIoChunks
  rw [dif_pos h]

theorem geomIoChunks_length_aux (M : Nat) (hM : 0 < M) :
    ∀ (n off endo : Nat), endo - off ≤ n →
      (geomIoChunks off endo M).length = (endo - off + M - 1) / M := by
  intro n
  induction n with
  | zero =>
    intro off endo h
    have hlt : ¬ off < endo := by omega
    rw [geomIoChunks_nil _ _ _ (fun hc => hlt hc.1)]
    have h0 : endo - off = 0 := by omega
    simp [h0, Nat.div_eq_of_lt (by omega : M - 1 < M)]
  | succ n ih =>
    intro off endo h
    by_cases hlt : off < endo
    · rw [geomIoChunks_cons _ _ _ ⟨hlt, hM⟩]
      rw [List.length_cons, ih (off + M) endo (by omega)]
      have hrw : endo - (off + M) = (endo - off) - M := by omega
      rw [hrw]
      set L := endo - off with hL
      have hLpos : 0 < L := by omega
      rcases le_or_lt L M with hLM | hLM
      · have h1 : L - M = 0 := by omega
        have h2 : L + M - 1 = (L - 1) + M := by omega
        rw [h1, Nat.zero_add, h2, Nat.add_div_right _ hM,
          Nat.div_eq_of_lt (by omega : M - 1 < M),
          Nat.div_eq_of_lt (by omega : L - 1 < M)]
      · have h2 : L + M - 1 = ((L - M) + M - 1) + M := by omega
        rw [h2, Nat.add_div_right _ hM]
    · rw [geomIoChunks_nil _ _ _ (fun hc => hlt hc.1)]
      have h0 : endo - off = 0 := by omega
      simp [h0, Nat.div_eq_of_lt (by omega : M - 1 < M)]

theorem geomIoChunks_length (off endo M : Nat) (hM : 0 < M) :
    (geomIoChunks off endo M).length = (endo - off + M - 1) / M :=
  geomIoChunks_length_aux M hM (endo - off) off endo le_rfl

theorem geomIoChunks_sum_aux (M : Nat) (hM : 0 < M) :
    ∀ (n off endo : Nat), endo - off ≤ n →
      ((geomIoChunks off endo M).map Prod.snd).sum = endo - off := by
  intro n
  induction n with
  | zero =>
    intro off endo h
    have hlt : ¬ off < endo := by omega
    rw [geomIoChunks_nil _ _ _ (fun hc => hlt hc.1)]
    simp; omega
  | succ n ih =>
    intro off endo h
    by_cases hlt : off < endo
    · rw [geomIoChunks_cons _ _ _ ⟨hlt, hM⟩]
      rw [List.map_cons, List.sum_cons, ih (off + M) endo (by omega)]
      have hrw : endo - (off + M) = (endo - off) - M := by omega
      rw [hrw]
      rcases le_or_lt (endo - off) M with hLM | hLM
      · rw [Nat.min_eq_left hLM]; omega
      · rw [Nat.min_eq_right (le_of_lt hLM)]; omega
    · rw [geomIoChunks_nil _ _ _ (fun hc => hlt hc.1)]
      simp; omega

theorem geomIoChunks_sum (off endo M : Nat) (hM : 0 < M) :
    ((geomIoChunks off endo M).map Prod.snd).sum = endo - off :=
  geomIoChunks_sum_aux M hM (endo - off) off endo le_rfl

theorem geomIoChunks_get_aux (M : Nat) (hM : 0 < M) :
    ∀ (n off endo : Nat), endo - off ≤ n →
      ∀ (i : Nat) (h : i < (geomIoChunks off endo M).length),
        (geomIoChunks off endo M).get ⟨i, h⟩ =
          (off + i * M, min (endo - (off + i * M)) M) := by
  intro n
  induction n with
  | zero =>
    intro off endo h i hi
    have hlt : ¬ off < endo := by omega
    rw [geomIoChunks_nil _ _ _ (fun hc => hlt hc.1)] at hi
    simp only [List.length_nil] at hi
    omega
  | succ n ih =>
    intro off endo h i hi
    by_cases hlt : off < endo
    · have heq := geomIoChunks_cons off endo M ⟨hlt, hM⟩
      rcases i with _ | j
      · rw [List.get_of_eq heq ⟨0, hi⟩]
        simp
      · rw [List.get_of_eq heq ⟨j + 1, hi⟩]
        have hj : j < (geomIoChunks (off + M) endo M).length := by
          have h2 := hi
          rw [heq] at h2
          simpa using Nat.lt_of_succ_lt_succ h2
        show (geomIoChunks (off + M) endo M).get ⟨j, _⟩ = _
        rw [ih (off + M) endo (by omega) j hj]
        have harith : off + M + j * M = off + (j + 1) * M := by ring
        rw [harith]
    · rw [geomIoChunks_nil _ _ _ (fun hc => hlt hc.1)] at hi
      simp only [List.length_nil] at hi
      omega

theorem geomIoChunks_get (off endo M : Nat) (hM : 0 < M) (i : Nat)
    (h : i < (geomIoChunks off endo M).length) :
    (geomIoChunks off endo M).get ⟨i, h⟩ =
      (off + i * M, min (endo - (off + i * M)) M) :=
  geomIoChunks_get_aux M hM (endo - off) off endo le_rfl i h

theorem geomIoRun_spec (err : Nat × Nat → Nat) :
    ∀ cs : List (Nat × Nat),
      (∃ t, cs = (geomIoRun err cs).1 ++ t) ∧
      ((geomIoRun err cs).2 = 0 → (geomIoRun err cs).1 = cs) ∧
      ((geomIoRun err cs).2 ≠ 0 →
        ∃ pre c, (geomIoRun err cs).1 = pre ++ [c] ∧
          err c = (geomIoRun err cs).2 ∧ ∀ x ∈ pre, err x = 0) := by
  intro cs
  induction cs with
  | nil => exact ⟨⟨[], rfl⟩, fun _ => rfl, fun h => absurd rfl h⟩
  | cons c cs ih =>
    by_cases hc : err c = 0
    · have hrun : geomIoRun err (c :: cs) =
          (c :: (geomIoRun err cs).1, (geomIoRun err cs).2) := by
        simp [geomIoRun, hc]
      rw [hrun]
      obtain ⟨⟨t, ht⟩, hz, hnz⟩ := ih
      refine ⟨⟨t, ?_⟩, ?_, ?_⟩
      · show c :: cs = (c :: (geomIoRun err cs).1) ++ t
        rw [List.cons_append, ← ht]
      · intro h
        simp only [List.cons.injEq, true_and]
        exact hz h
      · intro h
        obtain ⟨pre, d, h1, h2, h3⟩ := hnz h
        refine ⟨c :: pre, d, by simp [h1], h2, ?_⟩
        intro x hx
        rcases List.mem_cons.mp hx with hx | hx
        · rw [hx]; exact hc
        · exact h3 x hx
    · have hrun : geomIoRun err (c :: cs) = ([c], err c) := by
        simp [geomIoRun, hc]
      rw [hrun]
      refine ⟨⟨cs, rfl⟩, fun h => absurd h hc, fun _ => ⟨[], c, rfl, rfl, by simp⟩⟩

theorem vdev_geom_maxio_pos (s : Nat) (hs : 0 < s) (hsM : s ≤ MAXPHYS) :
    0 < vdev_geom_maxio s := by
  have := Nat.mod_lt MAXPHYS hs
  unfold vdev_geom_maxio
  omega

/-- The chunk list `vdev_geom_io` walks for a transfer of `size` bytes at
`offset` on a device with the given sector size (source lines 281-292). -/
def ioChunksOf (sectorsize offset size : Nat) : List (Nat × Nat) :=
  geomIoChunks offset (offset + size) (vdev_geom_maxio sectorsize)

/-- C3: for every read or write of length `L > 0` with maximum chunk size
`M` (`M` = `MAXPHYS` aligned down to a multiple of the sector size, `L` and
the starting offset multiples of the sector size), `vdev_geom_io` issues
exactly `⌈L/M⌉` chunks whose offsets are contiguous and non-overlapping,
whose lengths sum to `L`, issued in increasing offset order; if any chunk
fails, no chunk after it is issued and that chunk's error is reported for
the whole operation. -/
theorem c3_io_chunking (s off L : Nat) (err : Nat × Nat → Nat)
    (hs : 0 < s) (hsM : s ≤ MAXPHYS) (hL : 0 < L)
    (hoffd : s ∣ off) (hLd : s ∣ L) :
    (ioChunksOf s off L).length = (L + vdev_geom_maxio s - 1) / vdev_geom_maxio s ∧
    ((ioChunksOf s off L).map Prod.snd).sum = L ∧
    (∀ i (hi1 : i + 1 < (ioChunksOf s off L).length) (hi : i < (ioChunksOf s off L).length),
      ((ioChunksOf s off L).get ⟨i + 1, hi1⟩).1 =
        ((ioChunksOf s off L).get ⟨i, hi⟩).1 + ((ioChunksOf s off L).get ⟨i, hi⟩).2) ∧
    (∀ i j (hi : i < (ioChunksOf s off L).length) (hj : j < (ioChunksOf s off L).length),
      i < j → ((ioChunksOf s off L).get ⟨i, hi⟩).1 < ((ioChunksOf s off L).get ⟨j, hj⟩).1) ∧
    ((vdev_geom_io err s off L).2 = 0 → (vdev_geom_io err s off L).1 = ioChunksOf s off L) ∧
    (∃ t, ioChunksOf s off L = (vdev_geom_io err s off L).1 ++ t) ∧
    ((vdev_geom_io err s off L).2 ≠ 0 →
      ∃ pre c, (vdev_geom_io err s off L).1 = pre ++ [c] ∧
        err c = (vdev_geom_io err s off L).2 ∧ ∀ x ∈ pre, err x = 0) := by
  have hM : 0 < vdev_geom_maxio s := vdev_geom_maxio_pos s hs hsM
  have hsub : off + L - off = L := by omega
  have hlen : (ioChunksOf s off L).length = (L + vdev_geom_maxio s - 1) / vdev_geom_maxio s := by
    unfold ioChunksOf
    rw [geomIoChunks_length off (off + L) (vdev_geom_maxio s) hM, hsub]
  refine ⟨hlen, ?_, ?_, ?_, ?_, ?_, ?_⟩
  · unfold ioChunksOf
    rw [geomIoChunks_sum off (off + L) (vdev_geom_maxio s) hM, hsub]
  · intro i hi1 hi
    have hle : i + 2 ≤ (L + vdev_geom_maxio s - 1) / vdev_geom_maxio s := by
      rw [hlen] at hi1; omega
    have hmul : (i + 2) * vdev_geom_maxio s ≤ L + vdev_geom_maxio s - 1 :=
      (Nat.le_div_iff_mul_le hM).mp hle
    have hexp : (i + 2) * vdev_geom_maxio s = i * vdev_geom_maxio s + 2 * vdev_geom_maxio s := by
      ring
    rw [hexp] at hmul
    unfold ioChunksOf at hi1 hi ⊢
    rw [geomIoChunks_get off (off + L) (vdev_geom_maxio s) hM (i + 1) hi1,
      geomIoChunks_get off (off + L) (vdev_geom_maxio s) hM i hi]
    have hrem : off + L - (off + i * vdev_geom_maxio s) = L - i * vdev_geom_maxio s := by
      omega
    have hminM : min (off + L - (off + i * vdev_geom_maxio s)) (vdev_geom_maxio s) =
        vdev_geom_maxio s := by
      rw [hrem]
      exact Nat.min_eq_right (by omega)
    simp only [hminM, Nat.succ_mul]
    ring
  · intro i j hi hj hij
    unfold ioChunksOf at hi hj ⊢
    rw [geomIoChunks_get off (off + L) (vdev_geom_maxio s) hM i hi,
      geomIoChunks_get off (off + L) (vdev_geom_maxio s) hM j hj]
    have hmul : i * vdev_geom_maxio s < j * vdev_geom_maxio s :=
      (Nat.mul_lt_mul_right hM).mpr hij
    omega
  · exact (geomIoRun_spec err (ioChunksOf s off L)).2.1
  · exact (geomIoRun_spec err (ioChunksOf s off L)).1
  · exact (geomIoRun_spec err (ioChunksOf s off L)).2.2

theorem c3_io_chunking_witness :
    (0 < 512 ∧ 512 ≤ MAXPHYS ∧ 0 < (300 * 1024 : Nat) ∧
      512 ∣ 1024 ∧ 512 ∣ (300 * 1024 : Nat)) ∧
    ((ioChunksOf 512 1024 (300 * 1024)).map Prod.snd).sum = 300 * 1024 :=
  ⟨by decide,
    (c3_io_chunking 512 1024 (300 * 1024) (fun _ => 0)
      (by decide) (by decide) (by decide) (by decide) (by decide)).2.1⟩

/-! ## Data model

`Provider`/`Consumer` embed the GEOM objects as seen by vdev_geom.c:
a provider's fields are the ones this file reads (`name`, `sectorsize`,
`mediasize`) plus the label identity pair `vdev_geom_read_guids` would
extract from its media (`pguid`, `vguid`; `0` when absent/unreadable).
A consumer carries its access counts and whether `cp->private` still points
back at the vdev.  `Vdev` holds the fields of `vdev_t` this file touches;
`vdev_ashift` and `readable` are modelled from the spec (the generic vdev
layer stores open's returned ashift and provides `vdev_readable`). -/

structure Provider where
  name : String
  sectorsize : Nat
  mediasize : Nat
  pguid : Nat
  vguid : Nat
deriving DecidableEq

structure Consumer where
  provider : Provider
  acr : Nat
  acw : Nat
  ace : Nat
  priv : Bool
deriving DecidableEq

inductive Aux
  | noError
  | badLabel
  | openFailed
deriving DecidableEq

structure Vdev where
  vdev_path : Option String
  vdev_physpath : Option String
  vdev_guid : Nat
  vdev_tsd : Option Consumer
  vdev_nowritecache : Bool
  vdev_notrim : Bool
  vdev_remove_wanted : Bool
  vdev_delayed_close : Bool
  vdev_ashift : Nat
  vdev_prevstate_unknown : Bool
  vs_aux : Aux
  readable : Bool
deriving DecidableEq

/-! ## The I/O dispatcher `vdev_geom_io_start` (lines 676-755) -/

inductive ZioType
  | read
  | write
  | ioctl
deriving DecidableEq

inductive IoctlCmd
  | flushwritecache
  | trimcmd
  | other
deriving DecidableEq

structure ZioReq where
  io_type : ZioType
  io_cmd : IoctlCmd
  io_offset : Nat
  io_size : Nat
  io_error : Nat
deriving DecidableEq

/-- The module-level tunables read by the dispatcher: `zfs_nocacheflush`,
`vdev_geom_bio_flush_disable` (line 54), `vdev_geom_bio_delete_disable`
(line 59). -/
structure Globals where
  zfs_nocacheflush : Bool
  vdev_geom_bio_flush_disable : Bool
  vdev_geom_bio_delete_disable : Bool
deriving DecidableEq

inductive BioCmd
  | bread
  | bwrite
  | bflush
  | bdelete
deriving DecidableEq

structure BioReq where
  bio_cmd : BioCmd
  bio_offset : Nat
  bio_length : Nat
  bio_ordered : Bool
deriving DecidableEq

inductive Pipeline
  | cont
  | stop
deriving DecidableEq

/-- The `sendreq` tail of `vdev_geom_io_start` (lines 716-754): build the bio
from the zio and hand it to `g_io_request`; the bio is returned instead of
issued.  An ioctl other than flush/trim never reaches this point. -/
def vdev_geom_sendreq (vd : Vdev) (zio : ZioReq) : ZioReq × Pipeline × Option BioReq :=
  match vd.vdev_tsd with
  | none => ({zio with io_error := ENXIO}, Pipeline.cont, none)
  | some cp =>
    match zio.io_type with
    | ZioType.read =>
      (zio, Pipeline.stop, some ⟨BioCmd.bread, zio.io_offset, zio.io_size, false⟩)
    | ZioType.write =>
      (zio, Pipeline.stop, some ⟨BioCmd.bwrite, zio.io_offset, zio.io_size, false⟩)
    | ZioType.ioctl =>
      match zio.io_cmd with
      | IoctlCmd.flushwritecache =>
        (zio, Pipeline.stop, some ⟨BioCmd.bflush, cp.provider.mediasize, 0, true⟩)
      | IoctlCmd.trimcmd =>
        (zio, Pipeline.stop, some ⟨BioCmd.bdelete, zio.io_offset, zio.io_size, false⟩)
      | IoctlCmd.other => (zio, Pipeline.stop, none)

/-- `vdev_geom_io_start` (lines 676-755), returning the updated zio, the
pipeline signal, and the bio submitted to the device layer (if any). -/
def vdev_geom_io_start (g : Globals) (vd : Vdev) (zio : ZioReq) :
    ZioReq × Pipeline × Option BioReq :=
  match zio.io_type with
  | ZioType.ioctl =>
    if vd.readable = false then ({zio with io_error := ENXIO}, Pipeline.cont, none)
    else
      match zio.io_cmd with
      | IoctlCmd.flushwritecache =>
        if g.zfs_nocacheflush || g.vdev_geom_bio_flush_disable then
          (zio, Pipeline.cont, none)
        else if vd.vdev_nowritecache then
          ({zio with io_error := ENOTSUP}, Pipeline.cont, none)
        else vdev_geom_sendreq vd zio
      | IoctlCmd.trimcmd =>
        if g.vdev_geom_bio_delete_disable then (zio, Pipeline.cont, none)
        else if vd.vdev_notrim then
          ({zio with io_error := ENOTSUP}, Pipeline.cont, none)
        else vdev_geom_sendreq vd zio
      | IoctlCmd.other => ({zio with io_error := ENOTSUP}, Pipeline.cont, none)
  | _ => vdev_geom_sendreq vd zio

/-! ## The completion handler `vdev_geom_io_intr` (lines 623-674) -/

/-- A completed bio as the interrupt handler sees it: command, transfer
error, residual, and the provider's own error field (`bp->bio_to->error`)
at completion time. -/
structure BioDone where
  bio_cmd : BioCmd
  bio_error : Nat
  bio_resid : Nat
  prov_error : Nat
deriving DecidableEq

/-- External calls the completion handler can make: `zfs_post_remove` (the
fault report) and `spa_async_request(..., SPA_ASYNC_REMOVE)`. -/
inductive IntrAction
  | postRemove
  | asyncRemove
deriving DecidableEq

/-- Error classification, lines 631-633: a short transfer with no error is
reported as `EIO`. -/
def zioErrOf (bp : BioDone) : Nat :=
  if bp.bio_error = 0 ∧ bp.bio_resid ≠ 0 then EIO else bp.bio_error

/-- Sticky capability recording, lines 634-651. -/
def intrFlags (bp : BioDone) (vd : Vdev) : Vdev :=
  let vd1 := if bp.bio_cmd = BioCmd.bflush ∧ bp.bio_error = ENOTSUP then
    {vd with vdev_nowritecache := true} else vd
  if bp.bio_cmd = BioCmd.bdelete ∧ bp.bio_error = ENOTSUP then
    {vd1 with vdev_notrim := true} else vd1

/-- `vdev_geom_io_intr` (lines 623-674): returns the updated vdev, the
zio error delivered to the pipeline, and the external actions performed. -/
def vdev_geom_io_intr (bp : BioDone) (vd : Vdev) : Vdev × Nat × List IntrAction :=
  if zioErrOf bp = EIO ∧ (intrFlags bp vd).vdev_remove_wanted = false then
    if bp.prov_error ≠ 0 then
      ({intrFlags bp vd with vdev_remove_wanted := true}, zioErrOf bp,
        [IntrAction.postRemove, IntrAction.asyncRemove])
    else if (intrFlags bp vd).vdev_delayed_close = false then
      ({intrFlags bp vd with vdev_delayed_close := true}, zioErrOf bp, [])
    else (intrFlags bp vd, zioErrOf bp, [])
  else (intrFlags bp vd, zioErrOf bp, [])

/-! ## Topology event handlers and teardown (lines 64-146, 214-245, 610-621) -/

/-- `vdev_geom_orphan` (lines 64-93): no-op when `cp->private` is already
cleared, otherwise mark removal wanted and post the async removal request. -/
def vdev_geom_orphan (cp : Consumer) (vd : Vdev) : Vdev × List IntrAction :=
  if cp.priv then
    ({vd with vdev_remove_wanted := true}, [IntrAction.asyncRemove])
  else (vd, [])

/-- `vdev_geom_attrchanged` (lines 95-146) restricted to its effect on the
vdev: when the `GEOM::physpath` attribute was re-read successfully the cached
physical path is replaced, otherwise nothing changes. -/
def vdev_geom_attrchanged (res : Option String) (vd : Vdev) : Vdev :=
  match res with
  | some p => {vd with vdev_physpath := some p}
  | none => vd

/-- `vdev_geom_detach` (lines 214-245): clear the weak back-references if
still linked, release the read and exclusive claims, destroy the consumer
on last close (returning `none` for it). -/
def vdev_geom_detach (vd : Vdev) (cp : Consumer) : Vdev × Option Consumer :=
  let s1 := if cp.priv then ({vd with vdev_tsd := none}, {cp with priv := false})
    else (vd, cp)
  let cp1 : Consumer := {s1.2 with acr := s1.2.acr - 1, ace := s1.2.ace - 1}
  if cp1.acr = 0 ∧ cp1.ace = 0 then (s1.1, none) else (s1.1, some cp1)

/-- `vdev_geom_close` (lines 610-621): no-op when no handle, otherwise
detach the consumer the handle points at. -/
def vdev_geom_close (vd : Vdev) : Vdev × Option Consumer :=
  match vd.vdev_tsd with
  | none => (vd, none)
  | some cp => vdev_geom_detach vd cp

/-! ## Helper lemmas on the completion handler -/

theorem intrFlags_remove_wanted (bp : BioDone) (vd : Vdev) :
    (intrFlags bp vd).vdev_remove_wanted = vd.vdev_remove_wanted := by
  unfold intrFlags
  split <;> split <;> rfl

theorem intrFlags_delayed_close (bp : BioDone) (vd : Vdev) :
    (intrFlags bp vd).vdev_delayed_close = vd.vdev_delayed_close := by
  unfold intrFlags
  split <;> split <;> rfl

theorem intrFlags_ashift (bp : BioDone) (vd : Vdev) :
    (intrFlags bp vd).vdev_ashift = vd.vdev_ashift := by
  unfold intrFlags
  split <;> split <;> rfl

theorem intrFlags_nowritecache (bp : BioDone) (vd : Vdev) :
    (intrFlags bp vd).vdev_nowritecache = vd.vdev_nowritecache ∨
      (intrFlags bp vd).vdev_nowritecache = true := by
  unfold intrFlags
  split <;> split <;> simp

theorem intrFlags_notrim (bp : BioDone) (vd : Vdev) :
    (intrFlags bp vd).vdev_notrim = vd.vdev_notrim ∨
      (intrFlags bp vd).vdev_notrim = true := by
  unfold intrFlags
  split <;> split <;> simp

/-- Per-completion characterization: the fault-report/async-removal pair is
emitted exactly when the classified error is a hard `EIO`, the provider's own
error is set, and removal was not already wanted; the removal flag afterwards
is the old flag or-ed with that trigger. -/
def hardRemoval (bp : BioDone) : Bool :=
  (zioErrOf bp == EIO) && (bp.prov_error != 0)

theorem io_intr_step (bp : BioDone) (vd : Vdev) :
    ((vdev_geom_io_intr bp vd).2.2 = [IntrAction.postRemove, IntrAction.asyncRemove]
        ↔ (hardRemoval bp = true ∧ vd.vdev_remove_wanted = false)) ∧
    (vdev_geom_io_intr bp vd).1.vdev_remove_wanted =
      (vd.vdev_remove_wanted || hardRemoval bp) := by
  have hrw := intrFlags_remove_wanted bp vd
  unfold vdev_geom_io_intr
  by_cases he : zioErrOf bp = EIO ∧ (intrFlags bp vd).vdev_remove_wanted = false
  · rw [if_pos he]
    have hrw0 : vd.vdev_remove_wanted = false := hrw ▸ he.2
    by_cases hp : bp.prov_error ≠ 0
    · rw [if_pos hp]
      refine ⟨⟨fun _ => ⟨by simp [hardRemoval, he.1, hp], hrw0⟩, fun _ => rfl⟩, ?_⟩
      show true = (vd.vdev_remove_wanted || hardRemoval bp)
      simp [hardRemoval, he.1, hp, hrw0]
    · rw [if_neg hp]
      have hp0 : bp.prov_error = 0 := by omega
      have hhard : hardRemoval bp = false := by simp [hardRemoval, hp0]
      by_cases hd : (intrFlags bp vd).vdev_delayed_close = false
      · rw [if_pos hd]
        refine ⟨?_, ?_⟩
        · simp [hhard]
        · show (intrFlags bp vd).vdev_remove_wanted = _
          rw [hrw, hhard, hrw0]
          rfl
      · rw [if_neg hd]
        refine ⟨?_, ?_⟩
        · simp [hhard]
        · rw [hrw, hhard, hrw0]
          rfl
  · rw [if_neg he]
    refine ⟨?_, ?_⟩
    · constructor
      · intro h
        simp at h
      · rintro ⟨h1, h2⟩
        exfalso
        apply he
        have h1' : zioErrOf bp = EIO ∧ bp.prov_error ≠ 0 := by
          simpa [hardRemoval] using h1
        exact ⟨h1'.1, by rw [hrw]; exact h2⟩
    · rw [hrw]
      cases hb : vd.vdev_remove_wanted
      · have hne : zioErrOf bp ≠ EIO := by
          intro hioerr
          exact he ⟨hioerr, by rw [hrw, hb]⟩
        have hhard : hardRemoval bp = false := by simp [hardRemoval, hne]
        simp [hhard]
      · simp

theorem io_intr_nowritecache (bp : BioDone) (vd : Vdev)
    (h : vd.vdev_nowritecache = true) :
    (vdev_geom_io_intr bp vd).1.vdev_nowritecache = true := by
  have hf : (intrFlags bp vd).vdev_nowritecache = true := by
    rcases intrFlags_nowritecache bp vd with h1 | h1 <;> rw [h1]
    exact h
  unfold vdev_geom_io_intr
  split
  · split
    · exact hf
    · split
      · exact hf
      · exact hf
  · exact hf

theorem io_intr_notrim (bp : BioDone) (vd : Vdev)
    (h : vd.vdev_notrim = true) :
    (vdev_geom_io_intr bp vd).1.vdev_notrim = true := by
  have hf : (intrFlags bp vd).vdev_notrim = true := by
    rcases intrFlags_notrim bp vd with h1 | h1 <;> rw [h1]
    exact h
  unfold vdev_geom_io_intr
  split
  · split
    · exact hf
    · split
      · exact hf
      · exact hf
  · exact hf

theorem io_intr_ashift (bp : BioDone) (vd : Vdev) :
    (vdev_geom_io_intr bp vd).1.vdev_ashift = vd.vdev_ashift := by
  have hf := intrFlags_ashift bp vd
  unfold vdev_geom_io_intr
  split
  · split
    · exact hf
    · split
      · exact hf
      · exact hf
  · exact hf

theorem close_preserves (vd : Vdev) :
    (vdev_geom_close vd).1.vdev_nowritecache = vd.vdev_nowritecache ∧
    (vdev_geom_close vd).1.vdev_notrim = vd.vdev_notrim ∧
    (vdev_geom_close vd).1.vdev_ashift = vd.vdev_ashift := by
  cases h : vd.vdev_tsd with
  | none => simp [vdev_geom_close, h]
  | some cp =>
    simp only [vdev_geom_close, h]
    unfold vdev_geom_detach
    split <;> simp_all <;> split <;> simp_all

/-! ## The operations possible on an open handle (everything but open) -/

inductive GeomOp where
  | ioStart (g : Globals) (z : ZioReq)
  | intr (bp : BioDone)
  | orphanEv (cp : Consumer)
  | attrEv (res : Option String)
  | closeEv
deriving DecidableEq

/-- Effect of each operation on the vdev's fields.  `vdev_geom_io_start`
only reads the vdev (lines 676-755 contain no store to `*vd`), so its
effect on the vdev is the identity. -/
def applyGeomOp : GeomOp → Vdev → Vdev
  | GeomOp.ioStart _ _, vd => vd
  | GeomOp.intr bp, vd => (vdev_geom_io_intr bp vd).1
  | GeomOp.orphanEv cp, vd => (vdev_geom_orphan cp vd).1
  | GeomOp.attrEv r, vd => vdev_geom_attrchanged r vd
  | GeomOp.closeEv, vd => (vdev_geom_close vd).1

/-- C4: once the flush-unsupported flag (resp. the trim-unsupported flag) is
true, no operation of this module other than the next open makes it false
again: every flag transition while the vdev stays open is false-to-true
only. -/
theorem c4_sticky_monotone (op : GeomOp) (vd : Vdev) :
    (vd.vdev_nowritecache = true → (applyGeomOp op vd).vdev_nowritecache = true) ∧
    (vd.vdev_notrim = true → (applyGeomOp op vd).vdev_notrim = true) := by
  cases op with
  | ioStart g z => exact ⟨fun h => h, fun h => h⟩
  | intr bp => exact ⟨io_intr_nowritecache bp vd, io_intr_notrim bp vd⟩
  | orphanEv cp =>
    simp only [applyGeomOp]
    unfold vdev_geom_orphan
    split
    · exact ⟨fun h => h, fun h => h⟩
    · exact ⟨fun h => h, fun h => h⟩
  | attrEv r =>
    simp only [applyGeomOp]
    unfold vdev_geom_attrchanged
    cases r
    · exact ⟨fun h => h, fun h => h⟩
    · exact ⟨fun h => h, fun h => h⟩
  | closeEv =>
    have hc := close_preserves vd
    constructor
    · intro h
      show (vdev_geom_close vd).1.vdev_nowritecache = true
      rw [hc.1]
      exact h
    · intro h
      show (vdev_geom_close vd).1.vdev_notrim = true
      rw [hc.2.1]
      exact h

/-! ## Concrete fixtures used by witnesses and counterexamples -/

def pAda0 : Provider := ⟨"ada0", 512, 1073741824, 7, 9⟩

def cpAda0 : Consumer := ⟨pAda0, 1, 0, 1, true⟩

def vdFixture : Vdev :=
  { vdev_path := some "/dev/ada0", vdev_physpath := none, vdev_guid := 9,
    vdev_tsd := some cpAda0, vdev_nowritecache := true, vdev_notrim := false,
    vdev_remove_wanted := false, vdev_delayed_close := false, vdev_ashift := 9,
    vdev_prevstate_unknown := false, vs_aux := Aux.noError, readable := true }

def gOff : Globals := ⟨false, false, false⟩

def zioFlush : ZioReq := ⟨ZioType.ioctl, IoctlCmd.flushwritecache, 0, 0, 0⟩

theorem c4_sticky_monotone_witness :
    vdFixture.vdev_nowritecache = true ∧
    (applyGeomOp (GeomOp.intr ⟨BioCmd.bread, EIO, 0, 0⟩) vdFixture).vdev_nowritecache = true :=
  ⟨rfl, (c4_sticky_monotone (GeomOp.intr ⟨BioCmd.bread, EIO, 0, 0⟩) vdFixture).1 rfl⟩

/-! ## C1: sticky flush-unsupported short-circuit -/

/-- C1 as stated is false on the code: with the sticky flush-unsupported
flag set, the next flush-cache submission is indeed not sent to the device
layer, but it completes with `io_error = ENOTSUP` (45), not with a zero
(success) error. -/
theorem c1_counterexample :
    (vdev_geom_io_start gOff vdFixture zioFlush).2.2 = none ∧
    (vdev_geom_io_start gOff vdFixture zioFlush).1.io_error = ENOTSUP ∧
    ENOTSUP ≠ 0 := by decide

/-- C1 (amended): on an open handle whose sticky flush-unsupported flag is
set, every subsequent flush-cache submission on a readable vdev with
flushing not disabled by policy completes inline (pipeline-continue) with
the not-supported error recorded, without issuing any request to the device
layer. -/
theorem c1_flush_sticky (g : Globals) (vd : Vdev) (zio : ZioReq)
    (hr : vd.readable = true)
    (hg1 : g.zfs_nocacheflush = false)
    (hg2 : g.vdev_geom_bio_flush_disable = false)
    (hnwc : vd.vdev_nowritecache = true)
    (ht : zio.io_type = ZioType.ioctl)
    (hc : zio.io_cmd = IoctlCmd.flushwritecache) :
    vdev_geom_io_start g vd zio =
      ({zio with io_error := ENOTSUP}, Pipeline.cont, none) := by
  simp [vdev_geom_io_start, ht, hc, hr, hg1, hg2, hnwc]

theorem c1_flush_sticky_witness :
    (vdFixture.readable = true ∧ vdFixture.vdev_nowritecache = true ∧
      zioFlush.io_type = ZioType.ioctl ∧ zioFlush.io_cmd = IoctlCmd.flushwritecache) ∧
    vdev_geom_io_start gOff vdFixture zioFlush =
      ({zioFlush with io_error := ENOTSUP}, Pipeline.cont, none) :=
  ⟨⟨rfl, rfl, rfl, rfl⟩,
    c1_flush_sticky gOff vdFixture zioFlush rfl rfl rfl rfl rfl rfl⟩

/-! ## C5: fault report plus async removal exactly once -/

/-- Fold of `vdev_geom_io_intr` over a sequence of completions on the same
open handle, counting the completions that performed the fault-report plus
async-removal pair. -/
def vdev_geom_intr_run (vd : Vdev) : List BioDone → Vdev × Nat
  | [] => (vd, 0)
  | bp :: bps =>
    ((vdev_geom_intr_run (vdev_geom_io_intr bp vd).1 bps).1,
      (if (vdev_geom_io_intr bp vd).2.2 =
          [IntrAction.postRemove, IntrAction.asyncRemove] then 1 else 0) +
        (vdev_geom_intr_run (vdev_geom_io_intr bp vd).1 bps).2)

theorem intr_run_removed (bps : List BioDone) :
    ∀ vd : Vdev, vd.vdev_remove_wanted = true →
      (vdev_geom_intr_run vd bps).2 = 0 ∧
      (vdev_geom_intr_run vd bps).1.vdev_remove_wanted = true := by
  induction bps with
  | nil => exact fun vd h => ⟨rfl, h⟩
  | cons bp bps ih =>
    intro vd h
    have hstep := io_intr_step bp vd
    have hrw : (vdev_geom_io_intr bp vd).1.vdev_remove_wanted = true := by
      rw [hstep.2, h, Bool.true_or]
    have hpair : ¬ ((vdev_geom_io_intr bp vd).2.2 =
        [IntrAction.postRemove, IntrAction.asyncRemove]) := by
      rw [hstep.1]
      rintro ⟨_, h2⟩
      rw [h] at h2
      exact Bool.noConfusion h2
    obtain ⟨ihc, ihr⟩ := ih _ hrw
    unfold vdev_geom_intr_run
    refine ⟨?_, ihr⟩
    rw [if_neg hpair, ihc]

/-- C5: starting from an open handle with removal not yet requested, a
sequence of I/O completions performs the fault report and posts the async
removal request exactly once if some completion is a hard `EIO` with the
provider's fault indicator set (and never otherwise); the removal-requested
flag ends up set exactly in that case. -/
theorem c5_fault_report_once (vd : Vdev) (bps : List BioDone)
    (h : vd.vdev_remove_wanted = false) :
    (vdev_geom_intr_run vd bps).2 = (if bps.any hardRemoval then 1 else 0) ∧
    (vdev_geom_intr_run vd bps).1.vdev_remove_wanted = bps.any hardRemoval := by
  induction bps generalizing vd with
  | nil => exact ⟨rfl, h⟩
  | cons bp bps ih =>
    have hstep := io_intr_step bp vd
    by_cases hh : hardRemoval bp = true
    · have hpair : (vdev_geom_io_intr bp vd).2.2 =
          [IntrAction.postRemove, IntrAction.asyncRemove] :=
        hstep.1.mpr ⟨hh, h⟩
      have hrw : (vdev_geom_io_intr bp vd).1.vdev_remove_wanted = true := by
        rw [hstep.2, h, hh, Bool.false_or]
      obtain ⟨hc, hr⟩ := intr_run_removed bps _ hrw
      unfold vdev_geom_intr_run
      rw [List.any_cons, hh, Bool.true_or]
      exact ⟨by rw [if_pos hpair, hc]; simp, hr⟩
    · have hh0 : hardRemoval bp = false := by
        cases hhb : hardRemoval bp
        · rfl
        · exact absurd hhb hh
      have hpair : ¬ ((vdev_geom_io_intr bp vd).2.2 =
          [IntrAction.postRemove, IntrAction.asyncRemove]) := by
        rw [hstep.1]
        rintro ⟨h1, _⟩
        rw [hh0] at h1
        exact Bool.noConfusion h1
      have hrw : (vdev_geom_io_intr bp vd).1.vdev_remove_wanted = false := by
        rw [hstep.2, h, hh0, Bool.false_or]
      obtain ⟨hc, hr⟩ := ih _ hrw
      unfold vdev_geom_intr_run
      rw [List.any_cons, hh0, Bool.false_or]
      exact ⟨by rw [if_neg hpair, hc]; simp, hr⟩

theorem c5_fault_report_once_witness :
    vdFixture.vdev_remove_wanted = false ∧
    (vdev_geom_intr_run vdFixture [⟨BioCmd.bread, EIO, 0, 5⟩]).2 =
      (if List.any [⟨BioCmd.bread, EIO, 0, 5⟩] hardRemoval then 1 else 0) :=
  ⟨rfl, (c5_fault_report_once vdFixture [⟨BioCmd.bread, EIO, 0, 5⟩] rfl).1⟩

/-! ## C9: close is idempotent -/

/-- C9: calling close twice in a row is safe and the second call is a
no-op: after the first close the vdev's handle is null, and close on a vdev
whose handle is null returns without changing any state.  (The second part
assumes the consumer's back-reference is intact, which `vdev_geom_attach`
establishes and only `vdev_geom_detach` clears.) -/
theorem c9_close_idempotent (vd : Vdev) :
    (vd.vdev_tsd = none → vdev_geom_close vd = (vd, none)) ∧
    (∀ cp, vd.vdev_tsd = some cp → cp.priv = true →
      (vdev_geom_close vd).1.vdev_tsd = none ∧
      vdev_geom_close ((vdev_geom_close vd).1) = ((vdev_geom_close vd).1, none)) := by
  constructor
  · intro h
    simp [vdev_geom_close, h]
  · intro cp h hp
    have h1 : (vdev_geom_close vd).1.vdev_tsd = none := by
      simp only [vdev_geom_close, h]
      unfold vdev_geom_detach
      simp only [hp, if_true]
      split <;> rfl
    refine ⟨h1, ?_⟩
    generalize hgen : (vdev_geom_close vd).1 = vd2 at h1 ⊢
    simp [vdev_geom_close, h1]

theorem c9_close_idempotent_witness :
    vdFixture.vdev_tsd = some cpAda0 ∧ cpAda0.priv = true ∧
    (vdev_geom_close vdFixture).1.vdev_tsd = none ∧
    vdev_geom_close ((vdev_geom_close vdFixture).1) =
      ((vdev_geom_close vdFixture).1, none) := by
  have h := (c9_close_idempotent vdFixture).2 cpAda0 rfl rfl
  exact ⟨rfl, rfl, h.1, h.2⟩

/-! ## The open path (lines 148-212, 365-494, 496-608)

The GEOM environment is the collection of oracles the open path consults:
the system's provider list (the foreign providers `vdev_geom_attach_by_guids`
would walk, i.e. excluding this module's own class and withering entries),
whether `vdev_geom_attach` succeeds on a provider and the access counts of
the (possibly reused) consumer it yields, whether the taste attach+access
of the guid scan succeeds, and the outcome of each `g_access(cp, 0, 1, 0)`
write-claim attempt. -/

structure GeomEnv where
  providers : List Provider
  attach_ok : Provider → Bool
  attach_acr : Provider → Nat
  attach_acw : Provider → Nat
  attach_ace : Provider → Nat
  taste_ok : Provider → Bool
  waccess : Nat → Nat

structure Spa where
  spa_guid : Nat
  writer : Bool
  load_none : Bool
  splitting : Bool
deriving DecidableEq

/-- Resolution events observable from outside: a label read on a named
provider (`vdev_geom_read_guids`) and the start of the all-providers guid
scan (`vdev_geom_open_by_guids`). -/
inductive Ev
  | readGuids (name : String)
  | guidScan
deriving DecidableEq

/-- `vdev_geom_attach` (lines 148-212): on success the returned consumer is
bound to `pp`, carries the access counts the oracles report, and has
`cp->private = vd` set (line 206). -/
def gattach (env : GeomEnv) (p : Provider) : Option Consumer :=
  if env.attach_ok p then
    some ⟨p, env.attach_acr p, env.attach_acw p, env.attach_ace p, true⟩
  else none

def g_provider_by_name (env : GeomEnv) (name : String) : Option Provider :=
  env.providers.find? (fun p => p.name == name)

/-- `vdev_geom_open_by_path` (lines 457-494): look the provider up by the
stored path (minus the `/dev/` prefix), attach, and when `check_guid` is set
and the sector geometry allows label reads, accept only on an exact guid
match (detaching otherwise).  With `check_guid` unset, or with geometry
unsuitable for label reads, the attached consumer is returned as is. -/
def vdev_geom_open_by_path (env : GeomEnv) (spaGuid : Nat) (vd : Vdev)
    (check_guid : Bool) : Option Consumer × List Ev :=
  match vd.vdev_path with
  | none => (none, [])
  | some path =>
    match g_provider_by_name env (path.drop 5) with
    | none => (none, [])
    | some pp =>
      match gattach env pp with
      | none => (none, [])
      | some cp =>
        if check_guid ∧ ISP2 pp.sectorsize ∧ pp.sectorsize ≤ VDEV_PAD_SIZE then
          if pp.pguid ≠ spaGuid ∨ pp.vguid ≠ vd.vdev_guid then
            (none, [Ev.readGuids pp.name])
          else (some cp, [Ev.readGuids pp.name])
        else (some cp, [])

/-- The provider walk of `vdev_geom_attach_by_guids` (lines 365-423): taste
each provider whose read access can be acquired, read its label guids, and
attach for real use to the first exact match (continuing the walk when that
attach fails). -/
def attachByGuidsGo (env : GeomEnv) (spaGuid vdGuid : Nat) :
    List Provider → Option Consumer × List Ev
  | [] => (none, [])
  | p :: ps =>
    if env.taste_ok p then
      if p.pguid = spaGuid ∧ p.vguid = vdGuid then
        match gattach env p with
        | some cp => (some cp, [Ev.readGuids p.name])
        | none =>
          ((attachByGuidsGo env spaGuid vdGuid ps).1,
            Ev.readGuids p.name :: (attachByGuidsGo env spaGuid vdGuid ps).2)
      else
        ((attachByGuidsGo env spaGuid vdGuid ps).1,
          Ev.readGuids p.name :: (attachByGuidsGo env spaGuid vdGuid ps).2)
    else attachByGuidsGo env spaGuid vdGuid ps

/-- `vdev_geom_open_by_guids` (lines 425-455): run the scan; on success
replace the vdev's path with `/dev/<provider name>`. -/
def vdev_geom_open_by_guids (env : GeomEnv) (spa : Spa) (vd : Vdev) :
    Option Consumer × Vdev × List Ev :=
  match (attachByGuidsGo env spa.spa_guid vd.vdev_guid env.providers).1 with
  | some cp =>
    (some cp, {vd with vdev_path := some ("/dev/" ++ cp.provider.name)},
      Ev.guidScan :: (attachByGuidsGo env spa.spa_guid vd.vdev_guid env.providers).2)
  | none =>
    (none, vd,
      Ev.guidScan :: (attachByGuidsGo env spa.spa_guid vd.vdev_guid env.providers).2)

/-- The three-step resolution sequence of `vdev_geom_open` (lines 519-551):
path lookup with guid check, guid scan, and - only under the never-opened /
pool-split policy - unconditional path reuse. -/
def vdev_geom_resolve (env : GeomEnv) (spa : Spa) (vd : Vdev) :
    Option Consumer × Vdev × List Ev :=
  match (vdev_geom_open_by_path env spa.spa_guid vd true).1 with
  | some cp => (some cp, vd, (vdev_geom_open_by_path env spa.spa_guid vd true).2)
  | none =>
    match (vdev_geom_open_by_guids env spa vd).1 with
    | some cp =>
      (some cp, (vdev_geom_open_by_guids env spa vd).2.1,
        (vdev_geom_open_by_path env spa.spa_guid vd true).2 ++
          (vdev_geom_open_by_guids env spa vd).2.2)
    | none =>
      if (vd.vdev_prevstate_unknown ∧ spa.load_none) ∨ spa.splitting then
        ((vdev_geom_open_by_path env spa.spa_guid
            (vdev_geom_open_by_guids env spa vd).2.1 false).1,
          (vdev_geom_open_by_guids env spa vd).2.1,
          (vdev_geom_open_by_path env spa.spa_guid vd true).2 ++
            (vdev_geom_open_by_guids env spa vd).2.2 ++
            (vdev_geom_open_by_path env spa.spa_guid
              (vdev_geom_open_by_guids env spa vd).2.1 false).2)
      else
        (none, (vdev_geom_open_by_guids env spa vd).2.1,
          (vdev_geom_open_by_path env spa.spa_guid vd true).2 ++
            (vdev_geom_open_by_guids env spa vd).2.2)

/-- The write-claim retry loop (lines 563-580): up to 5 `g_access` attempts,
stopping at the first success; `err` is the running `error` variable. -/
def wclaimGo (w : Nat → Nat) : Nat → Nat → Nat → Nat
  | _, 0, err => err
  | i, Nat.succ n, _ => if w i = 0 then 0 else wclaimGo w (i + 1) n (w i)

def vdev_geom_wclaim (env : GeomEnv) : Nat := wclaimGo env.waccess 0 5 0

/-- `ashift` computation, line 599: `highbit(MAX(sectorsize,
SPA_MINBLOCKSIZE)) - 1`. -/
def geomAshift (sectorsize : Nat) : Nat :=
  highbit (max sectorsize SPA_MINBLOCKSIZE) - 1

structure OpenResult where
  error : Nat
  vd : Vdev
  psize : Option Nat
  max_psize : Option Nat
  ashift : Option Nat
  evs : List Ev
deriving DecidableEq

/-- Successful tail of `vdev_geom_open` (lines 588-607): record the handle,
report sizes and ashift, clear `vdev_nowritecache`.  The vdev's stored
`vdev_ashift` is modelled from the spec (the generic vdev layer stores the
value open returns). -/
def vdev_geom_open_success (vd : Vdev) (cp : Consumer) (evs : List Ev) : OpenResult :=
  ⟨0,
    {vd with
      vdev_tsd := some cp
      vdev_nowritecache := false
      vdev_ashift := geomAshift cp.provider.sectorsize},
    some cp.provider.mediasize, some cp.provider.mediasize,
    some (geomAshift cp.provider.sectorsize), evs⟩

/-- Post-resolution checks of `vdev_geom_open` (lines 553-587): reject
unsupported sector geometry with `EINVAL`; acquire the write claim when the
pool is opened for writing and the consumer has none, failing the open with
the last `g_access` error when all 5 attempts fail. -/
def vdev_geom_open_finish (env : GeomEnv) (spa : Spa) (vd : Vdev) (cp : Consumer)
    (evs : List Ev) : OpenResult :=
  if VDEV_PAD_SIZE < cp.provider.sectorsize ∨ ¬ ISP2 cp.provider.sectorsize then
    ⟨EINVAL, {vd with vs_aux := Aux.openFailed}, none, none, none, evs⟩
  else if cp.acw = 0 ∧ spa.writer then
    if vdev_geom_wclaim env = 0 then
      vdev_geom_open_success vd {cp with acw := cp.acw + 1} evs
    else
      ⟨vdev_geom_wclaim env, {vd with vs_aux := Aux.openFailed}, none, none, none, evs⟩
  else vdev_geom_open_success vd cp evs

/-- Path precondition of `vdev_geom_open` (lines 505-511): a path must be
present and absolute (`vdev_path[0] == '/'`). -/
def vdev_path_ok (vd : Vdev) : Bool :=
  match vd.vdev_path with
  | none => false
  | some p => p.data.head? == some '/'

/-- `vdev_geom_open` (lines 496-608). -/
def vdev_geom_open (env : GeomEnv) (spa : Spa) (vd0 : Vdev) : OpenResult :=
  if vdev_path_ok vd0 = false then
    ⟨EINVAL, {vd0 with vs_aux := Aux.badLabel}, none, none, none, []⟩
  else
    match (vdev_geom_resolve env spa {vd0 with vdev_tsd := none}).1 with
    | none =>
      ⟨ENOENT,
        {(vdev_geom_resolve env spa {vd0 with vdev_tsd := none}).2.1 with
          vs_aux := Aux.openFailed}, none, none, none,
        (vdev_geom_resolve env spa {vd0 with vdev_tsd := none}).2.2⟩
    | some cp =>
      vdev_geom_open_finish env spa
        (vdev_geom_resolve env spa {vd0 with vdev_tsd := none}).2.1 cp
        (vdev_geom_resolve env spa {vd0 with vdev_tsd := none}).2.2

/-! ## Helper lemmas on the open path -/

theorem resolve_vd_shape (env : GeomEnv) (spa : Spa) (vd : Vdev) :
    (vdev_geom_resolve env spa vd).2.1 =
      {vd with vdev_path := (vdev_geom_resolve env spa vd).2.1.vdev_path} := by
  unfold vdev_geom_resolve vdev_geom_open_by_guids
  repeat' split
  all_goals rfl

theorem open_finish_cases (env : GeomEnv) (spa : Spa) (vd : Vdev) (cp : Consumer)
    (evs : List Ev) (h : (vdev_geom_open_finish env spa vd cp evs).error = 0) :
    ¬ (VDEV_PAD_SIZE < cp.provider.sectorsize ∨ ¬ ISP2 cp.provider.sectorsize) ∧
    (vdev_geom_open_finish env spa vd cp evs = vdev_geom_open_success vd cp evs ∨
      vdev_geom_open_finish env spa vd cp evs =
        vdev_geom_open_success vd {cp with acw := cp.acw + 1} evs) := by
  unfold vdev_geom_open_finish at h ⊢
  by_cases hbad : VDEV_PAD_SIZE < cp.provider.sectorsize ∨ ¬ ISP2 cp.provider.sectorsize
  · rw [if_pos hbad] at h
    have h' : EINVAL = 0 := h
    exact absurd h' (by decide)
  · rw [if_neg hbad] at h ⊢
    by_cases hwc : cp.acw = 0 ∧ spa.writer
    · rw [if_pos hwc] at h ⊢
      by_cases hw0 : vdev_geom_wclaim env = 0
      · rw [if_pos hw0]
        exact ⟨hbad, Or.inr rfl⟩
      · rw [if_neg hw0] at h
        exact absurd h hw0
    · rw [if_neg hwc]
      exact ⟨hbad, Or.inl rfl⟩

theorem open_success_shape (env : GeomEnv) (spa : Spa) (vd : Vdev)
    (h : (vdev_geom_open env spa vd).error = 0) :
    ∃ cp : Consumer,
      vdev_geom_open env spa vd =
        vdev_geom_open_success
          (vdev_geom_resolve env spa {vd with vdev_tsd := none}).2.1 cp
          (vdev_geom_resolve env spa {vd with vdev_tsd := none}).2.2 ∧
      ISP2 cp.provider.sectorsize = true ∧
      cp.provider.sectorsize ≤ VDEV_PAD_SIZE ∧
      ∃ cp0 : Consumer,
        (vdev_geom_resolve env spa {vd with vdev_tsd := none}).1 = some cp0 ∧
        cp0.provider = cp.provider := by
  by_cases hp : vdev_path_ok vd = false
  · exfalso
    have he : (vdev_geom_open env spa vd).error = EINVAL := by
      simp [vdev_geom_open, hp]
    rw [he] at h
    exact absurd h (by decide)
  · cases hres : (vdev_geom_resolve env spa {vd with vdev_tsd := none}).1 with
    | none =>
      exfalso
      have he : (vdev_geom_open env spa vd).error = ENOENT := by
        simp [vdev_geom_open, hp, hres]
      rw [he] at h
      exact absurd h (by decide)
    | some cp =>
      have hopen : vdev_geom_open env spa vd =
          vdev_geom_open_finish env spa
            (vdev_geom_resolve env spa {vd with vdev_tsd := none}).2.1 cp
            (vdev_geom_resolve env spa {vd with vdev_tsd := none}).2.2 := by
        simp [vdev_geom_open, hp, hres]
      rw [hopen] at h
      obtain ⟨hgood, hcases⟩ := open_finish_cases env spa _ cp _ h
      have hISP : ISP2 cp.provider.sectorsize = true := by
        cases hb : ISP2 cp.provider.sectorsize
        · exact absurd (Or.inr (by simp [hb])) hgood
        · rfl
      have hle : cp.provider.sectorsize ≤ VDEV_PAD_SIZE := by
        by_contra hgt
        exact hgood (Or.inl (by omega))
      rcases hcases with hfin | hfin
      · exact ⟨cp, by rw [hopen, hfin], hISP, hle, cp, rfl, rfl⟩
      · exact ⟨{cp with acw := cp.acw + 1}, by rw [hopen, hfin], hISP, hle, cp, rfl, rfl⟩

theorem geomAshift_pow (k : Nat) :
    2 ^ geomAshift (2 ^ k) = max (2 ^ k) SPA_MINBLOCKSIZE ∧
    geomAshift (2 ^ k) = Nat.log2 (max (2 ^ k) SPA_MINBLOCKSIZE) := by
  have h512 : SPA_MINBLOCKSIZE = 2 ^ 9 := by decide
  have hmax : max (2 ^ k) SPA_MINBLOCKSIZE = 2 ^ max k 9 := by
    rw [h512]
    rcases le_total k 9 with hk | hk
    · rw [Nat.max_eq_right (Nat.pow_le_pow_right (by norm_num) hk),
        Nat.max_eq_right hk]
    · rw [Nat.max_eq_left (Nat.pow_le_pow_right (by norm_num) hk),
        Nat.max_eq_left hk]
  have hne : (2 : Nat) ^ max k 9 ≠ 0 := by positivity
  have hlog : Nat.log2 (2 ^ max k 9) = max k 9 := by
    rw [Nat.log2_eq_log_two, Nat.log_pow (by norm_num)]
  constructor
  · unfold geomAshift highbit
    rw [hmax, if_neg hne, hlog, Nat.add_sub_cancel]
  · unfold geomAshift highbit
    rw [hmax, if_neg hne, hlog, Nat.add_sub_cancel]

theorem wclaim_all_fail (env : GeomEnv) (h : ∀ i, i < 5 → env.waccess i ≠ 0) :
    vdev_geom_wclaim env = env.waccess 4 := by
  have h0 := h 0 (by omega)
  have h1 := h 1 (by omega)
  have h2 := h 2 (by omega)
  have h3 := h 3 (by omega)
  have h4 := h 4 (by omega)
  unfold vdev_geom_wclaim
  unfold wclaimGo
  rw [if_neg h0]
  unfold wclaimGo
  rw [if_neg h1]
  unfold wclaimGo
  rw [if_neg h2]
  unfold wclaimGo
  rw [if_neg h3]
  unfold wclaimGo
  rw [if_neg h4]
  rfl

theorem applyGeomOp_ashift (op : GeomOp) (vd : Vdev) :
    (applyGeomOp op vd).vdev_ashift = vd.vdev_ashift := by
  cases op with
  | ioStart g z => rfl
  | intr bp => exact io_intr_ashift bp vd
  | orphanEv cp =>
    simp only [applyGeomOp]
    unfold vdev_geom_orphan
    split <;> rfl
  | attrEv r =>
    simp only [applyGeomOp]
    unfold vdev_geom_attrchanged
    cases r <;> rfl
  | closeEv => exact (close_preserves vd).2.2

/-! ## Concrete open-path fixtures -/

def envSimple : GeomEnv :=
  ⟨[pAda0], fun _ => true, fun _ => 1, fun _ => 0, fun _ => 1, fun _ => true, fun _ => 1⟩

def spaReader : Spa := ⟨7, false, true, false⟩

def vdPreTrim : Vdev := {vdFixture with vdev_notrim := true, vdev_tsd := none}

/-! ## C2: what a successful open clears -/

/-- C2 is false as stated: this successful open leaves the previously set
trim-unsupported flag set.  Open clears only the flush-unsupported flag
(line 605 clears `vdev_nowritecache`; nothing in the open path touches
`vdev_notrim`). -/
theorem c2_counterexample :
    (vdev_geom_open envSimple spaReader vdPreTrim).error = 0 ∧
    (vdev_geom_open envSimple spaReader vdPreTrim).vd.vdev_notrim = true := by
  decide

/-- C2 (amended): every successful open clears the flush-unsupported flag
before returning; the trim-unsupported flag is left unchanged by open (it
is not reset on reopen). -/
theorem c2_open_clears_flush_only (env : GeomEnv) (spa : Spa) (vd : Vdev)
    (h : (vdev_geom_open env spa vd).error = 0) :
    (vdev_geom_open env spa vd).vd.vdev_nowritecache = false ∧
    (vdev_geom_open env spa vd).vd.vdev_notrim = vd.vdev_notrim := by
  obtain ⟨cp, hopen, -, -, -⟩ := open_success_shape env spa vd h
  rw [hopen]
  refine ⟨rfl, ?_⟩
  show ((vdev_geom_resolve env spa {vd with vdev_tsd := none}).2.1).vdev_notrim =
    vd.vdev_notrim
  rw [resolve_vd_shape]

theorem c2_open_clears_flush_only_witness :
    (vdev_geom_open envSimple spaReader vdPreTrim).error = 0 ∧
    ((vdev_geom_open envSimple spaReader vdPreTrim).vd.vdev_nowritecache = false ∧
      (vdev_geom_open envSimple spaReader vdPreTrim).vd.vdev_notrim =
        vdPreTrim.vdev_notrim) :=
  ⟨by decide, c2_open_clears_flush_only envSimple spaReader vdPreTrim (by decide)⟩

/-! ## C6: ashift -/

/-- C6: after every successful open the returned ashift is the base-2
logarithm of max(sector size, minimum block size) - with a power-of-two
sector size, `2 ^ ashift` recovers that max exactly - the stored
`vdev_ashift` equals the returned value, and no operation of this module
other than the next open changes the stored value. -/
theorem c6_ashift_log2 (env : GeomEnv) (spa : Spa) (vd : Vdev) (cp : Consumer) (k : Nat)
    (h : (vdev_geom_open env spa vd).error = 0)
    (htsd : (vdev_geom_open env spa vd).vd.vdev_tsd = some cp)
    (hpow : cp.provider.sectorsize = 2 ^ k) :
    (vdev_geom_open env spa vd).ashift =
      some (Nat.log2 (max cp.provider.sectorsize SPA_MINBLOCKSIZE)) ∧
    2 ^ Nat.log2 (max cp.provider.sectorsize SPA_MINBLOCKSIZE) =
      max cp.provider.sectorsize SPA_MINBLOCKSIZE ∧
    (vdev_geom_open env spa vd).vd.vdev_ashift =
      Nat.log2 (max cp.provider.sectorsize SPA_MINBLOCKSIZE) ∧
    ∀ op : GeomOp,
      (applyGeomOp op (vdev_geom_open env spa vd).vd).vdev_ashift =
        (vdev_geom_open env spa vd).vd.vdev_ashift := by
  obtain ⟨cp2, hopen, -, -, -⟩ := open_success_shape env spa vd h
  have hcp : cp2 = cp := by
    rw [hopen] at htsd
    exact Option.some.inj htsd
  subst hcp
  refine ⟨?_, ?_, ?_, fun op => applyGeomOp_ashift op _⟩
  · rw [hopen]
    show some (geomAshift cp2.provider.sectorsize) = _
    rw [hpow, (geomAshift_pow k).2]
  · rw [hpow, ← (geomAshift_pow k).2]
    exact (geomAshift_pow k).1
  · rw [hopen]
    show geomAshift cp2.provider.sectorsize = _
    rw [hpow, (geomAshift_pow k).2]

theorem c6_ashift_log2_witness :
    ((vdev_geom_open envSimple spaReader vdPreTrim).error = 0 ∧
      (vdev_geom_open envSimple spaReader vdPreTrim).vd.vdev_tsd =
        some ⟨pAda0, 1, 0, 1, true⟩ ∧
      pAda0.sectorsize = 2 ^ 9) ∧
    (vdev_geom_open envSimple spaReader vdPreTrim).ashift =
      some (Nat.log2 (max (Consumer.mk pAda0 1 0 1 true).provider.sectorsize
        SPA_MINBLOCKSIZE)) :=
  ⟨⟨by decide, by decide, by decide⟩,
    (c6_ashift_log2 envSimple spaReader vdPreTrim ⟨pAda0, 1, 0, 1, true⟩ 9
      (by decide) (by decide) (by decide)).1⟩

/-! ## C7: unsupported sector geometry is always rejected -/

/-- C7: a candidate device whose sector size is not a power of two or
exceeds `VDEV_PAD_SIZE` is never bound by a successful open, regardless of
identity match; when resolution nominates such a device, open fails with
`EINVAL` and the handle stays null. -/
theorem c7_sector_geometry_rejected (env : GeomEnv) (spa : Spa) (vd : Vdev) :
    (∀ cp : Consumer, (vdev_geom_open env spa vd).error = 0 →
      (vdev_geom_open env spa vd).vd.vdev_tsd = some cp →
      ISP2 cp.provider.sectorsize = true ∧ cp.provider.sectorsize ≤ VDEV_PAD_SIZE) ∧
    (∀ cp : Consumer, vdev_path_ok vd = true →
      (vdev_geom_resolve env spa {vd with vdev_tsd := none}).1 = some cp →
      (VDEV_PAD_SIZE < cp.provider.sectorsize ∨ ¬ ISP2 cp.provider.sectorsize) →
      (vdev_geom_open env spa vd).error = EINVAL ∧
      (vdev_geom_open env spa vd).vd.vdev_tsd = none) := by
  constructor
  · intro cp h htsd
    obtain ⟨cp2, hopen, hISP, hle, -⟩ := open_success_shape env spa vd h
    rw [hopen] at htsd
    obtain rfl := Option.some.inj htsd
    exact ⟨hISP, hle⟩
  · intro cp hpo hres hbad
    have hopen : vdev_geom_open env spa vd =
        vdev_geom_open_finish env spa
          (vdev_geom_resolve env spa {vd with vdev_tsd := none}).2.1 cp
          (vdev_geom_resolve env spa {vd with vdev_tsd := none}).2.2 := by
      simp [vdev_geom_open, hpo, hres]
    rw [hopen]
    unfold vdev_geom_open_finish
    rw [if_pos hbad]
    refine ⟨rfl, ?_⟩
    show ((vdev_geom_resolve env spa {vd with vdev_tsd := none}).2.1).vdev_tsd = none
    rw [resolve_vd_shape]

def pBad : Provider := ⟨"bad0", 520, 1073741824, 7, 9⟩

def envBad : GeomEnv :=
  ⟨[pBad], fun _ => true, fun _ => 1, fun _ => 0, fun _ => 1, fun _ => true, fun _ => 1⟩

def vdBadPath : Vdev := {vdFixture with vdev_tsd := none, vdev_path := some "/dev/bad0"}

theorem c7_sector_geometry_rejected_witness :
    (vdev_path_ok vdBadPath = true ∧
      (vdev_geom_resolve envBad spaReader {vdBadPath with vdev_tsd := none}).1 =
        some ⟨pBad, 1, 0, 1, true⟩ ∧
      (VDEV_PAD_SIZE < pBad.sectorsize ∨ ¬ ISP2 pBad.sectorsize)) ∧
    (vdev_geom_open envBad spaReader vdBadPath).error = EINVAL ∧
    (vdev_geom_open envBad spaReader vdBadPath).vd.vdev_tsd = none :=
  ⟨⟨by decide, by decide, by decide⟩,
    (c7_sector_geometry_rejected envBad spaReader vdBadPath).2 ⟨pBad, 1, 0, 1, true⟩
      (by decide) (by decide) (by decide)⟩

/-! ## C8: write-claim retry exhaustion -/

/-- C8: for a pool opened for writing whose consumer holds no write claim,
if all 5 write-claim attempts fail, open returns the final attempt's
(nonzero) error, the handle stays null, and the auxiliary status records
open-failed. -/
theorem c8_write_claim_failure (env : GeomEnv) (spa : Spa) (vd : Vdev) (cp : Consumer)
    (hpo : vdev_path_ok vd = true)
    (hres : (vdev_geom_resolve env spa {vd with vdev_tsd := none}).1 = some cp)
    (hgeom : ¬ (VDEV_PAD_SIZE < cp.provider.sectorsize ∨ ¬ ISP2 cp.provider.sectorsize))
    (hacw : cp.acw = 0) (hw : spa.writer = true)
    (hfail : ∀ i, i < 5 → env.waccess i ≠ 0) :
    (vdev_geom_open env spa vd).error = env.waccess 4 ∧
    (vdev_geom_open env spa vd).error ≠ 0 ∧
    (vdev_geom_open env spa vd).vd.vdev_tsd = none ∧
    (vdev_geom_open env spa vd).vd.vs_aux = Aux.openFailed := by
  have hwc := wclaim_all_fail env hfail
  have hopen : vdev_geom_open env spa vd =
      vdev_geom_open_finish env spa
        (vdev_geom_resolve env spa {vd with vdev_tsd := none}).2.1 cp
        (vdev_geom_resolve env spa {vd with vdev_tsd := none}).2.2 := by
    simp [vdev_geom_open, hpo, hres]
  have hwne : ¬ (vdev_geom_wclaim env = 0) := by
    rw [hwc]
    exact hfail 4 (by omega)
  rw [hopen]
  unfold vdev_geom_open_finish
  rw [if_neg hgeom, if_pos ⟨hacw, by rw [hw]⟩, if_neg hwne]
  refine ⟨hwc, ?_, ?_, rfl⟩
  · show vdev_geom_wclaim env ≠ 0
    exact hwne
  · show ((vdev_geom_resolve env spa {vd with vdev_tsd := none}).2.1).vdev_tsd = none
    rw [resolve_vd_shape]

def envBusy : GeomEnv :=
  ⟨[pAda0], fun _ => true, fun _ => 1, fun _ => 0, fun _ => 1, fun _ => true, fun _ => 16⟩

def spaWriter : Spa := ⟨7, true, true, false⟩

def vdOpenW : Vdev := {vdFixture with vdev_tsd := none}

theorem c8_write_claim_failure_witness :
    (vdev_path_ok vdOpenW = true ∧ spaWriter.writer = true ∧
      (∀ i, i < 5 → envBusy.waccess i ≠ 0)) ∧
    (vdev_geom_open envBusy spaWriter vdOpenW).error = envBusy.waccess 4 ∧
    (vdev_geom_open envBusy spaWriter vdOpenW).error ≠ 0 ∧
    (vdev_geom_open envBusy spaWriter vdOpenW).vd.vdev_tsd = none ∧
    (vdev_geom_open envBusy spaWriter vdOpenW).vd.vs_aux = Aux.openFailed :=
  ⟨⟨by decide, rfl, fun i hi => by show (16 : Nat) ≠ 0; decide⟩,
    c8_write_claim_failure envBusy spaWriter vdOpenW ⟨pAda0, 1, 0, 1, true⟩
      (by decide) (by decide) (by decide) rfl rfl
      (fun i hi => by show (16 : Nat) ≠ 0; decide)⟩

/-! ## C10: no identity-scan fallback behind a bad-geometry path hit -/

/-- C10: when the device at the stored path exists and attaches but its
sector geometry is unsupported, the path-lookup step returns that attached
device without reading its on-media identity, so open fails with `EINVAL`
without attempting the identity-scan fallback - the event trace is empty
(no label read, no guid scan), whatever other matching devices exist. -/
theorem c10_no_fallback_on_bad_sector (env : GeomEnv) (spa : Spa) (vd : Vdev)
    (path : String) (pp : Provider)
    (hpath : vd.vdev_path = some path)
    (hpo : vdev_path_ok vd = true)
    (hfind : g_provider_by_name env (path.drop 5) = some pp)
    (hattach : env.attach_ok pp = true)
    (hbad : ¬ (ISP2 pp.sectorsize ∧ pp.sectorsize ≤ VDEV_PAD_SIZE)) :
    (vdev_geom_open env spa vd).error = EINVAL ∧
    (vdev_geom_open env spa vd).vd.vdev_tsd = none ∧
    (vdev_geom_open env spa vd).evs = [] := by
  have hc : ¬ ((true : Bool) ∧ ISP2 pp.sectorsize ∧ pp.sectorsize ≤ VDEV_PAD_SIZE) := by
    intro hcon
    exact hbad ⟨hcon.2.1, hcon.2.2⟩
  have hobp : vdev_geom_open_by_path env spa.spa_guid {vd with vdev_tsd := none} true =
      (some ⟨pp, env.attach_acr pp, env.attach_acw pp, env.attach_ace pp, true⟩, []) := by
    unfold vdev_geom_open_by_path
    rw [show ({vd with vdev_tsd := none} : Vdev).vdev_path = some path from hpath]
    simp only [hfind, gattach, hattach, if_true]
    split
    next hcon => exact absurd ⟨hcon.2.1, hcon.2.2⟩ hbad
    next => rfl
  have hresolve : vdev_geom_resolve env spa {vd with vdev_tsd := none} =
      (some ⟨pp, env.attach_acr pp, env.attach_acw pp, env.attach_ace pp, true⟩,
        {vd with vdev_tsd := none}, []) := by
    unfold vdev_geom_resolve
    rw [hobp]
  have hbad2 : VDEV_PAD_SIZE < pp.sectorsize ∨ ¬ ISP2 pp.sectorsize := by
    by_cases hI : ISP2 pp.sectorsize
    · left
      by_contra hle
      exact hbad ⟨hI, by omega⟩
    · right
      exact hI
  have hopen : vdev_geom_open env spa vd =
      vdev_geom_open_finish env spa {vd with vdev_tsd := none}
        ⟨pp, env.attach_acr pp, env.attach_acw pp, env.attach_ace pp, true⟩ [] := by
    simp [vdev_geom_open, hpo, hresolve]
  rw [hopen]
  unfold vdev_geom_open_finish
  rw [if_pos hbad2]
  exact ⟨rfl, rfl, rfl⟩

def pGood : Provider := ⟨"good0", 512, 1073741824, 7, 9⟩

def envTwo : GeomEnv :=
  ⟨[pBad, pGood], fun _ => true, fun _ => 1, fun _ => 0, fun _ => 1, fun _ => true,
    fun _ => 1⟩

theorem c10_no_fallback_on_bad_sector_witness :
    (vdBadPath.vdev_path = some "/dev/bad0" ∧
      g_provider_by_name envTwo ("/dev/bad0".drop 5) = some pBad ∧
      pGood.pguid = spaReader.spa_guid ∧ pGood.vguid = vdBadPath.vdev_guid ∧
      ¬ (ISP2 pBad.sectorsize ∧ pBad.sectorsize ≤ VDEV_PAD_SIZE)) ∧
    (vdev_geom_open envTwo spaReader vdBadPath).error = EINVAL ∧
    (vdev_geom_open envTwo spaReader vdBadPath).vd.vdev_tsd = none ∧
    (vdev_geom_open envTwo spaReader vdBadPath).evs = [] :=
  ⟨⟨rfl, by decide, rfl, rfl, by decide⟩,
    c10_no_fallback_on_bad_sector envTwo spaReader vdBadPath "/dev/bad0" pBad rfl
      (by decide) (by decide) rfl (by decide)⟩

end VdevGeom
